import Mathlib

/-!
Verification of the z-news collection pipeline.

Shallow embedding of the news-collection, relevance-scoring and
deduplication pipeline (`src/utils.py`, `src/collect_all_news.py`,
`src/services/search_service.py`, `src/config/config.py`).
Python strings are modelled as `List Char`; Python floats appearing in
the relevance scorer are modelled as rationals; the nondeterministic
network outcome of each underlying HTTP attempt is modelled by an
environment function `Nat → CallOutcome` indexed by attempt number.
-/

namespace ZNews

/-! ### Python string primitives -/

/-- Python `s.lower()`, restricted to the per-character case mapping
(adequate for the ASCII entity names and indicator strings involved). -/
def pyLower (s : List Char) : List Char := s.map Char.toLower

/-- Python `s.strip()`: drop leading and trailing whitespace. -/
def pyStrip (s : List Char) : List Char :=
  ((s.dropWhile Char.isWhitespace).reverse.dropWhile Char.isWhitespace).reverse

/-- Index of the first occurrence of `needle` in `hay`
(Python `hay.find(needle)` restricted to the found case);
`none` when `needle` does not occur.  Python's `find` returns the least
index, and the empty needle occurs at index 0. -/
def firstOccur (needle hay : List Char) : Option Nat :=
  if needle.isPrefixOf hay then some 0
  else
    match hay with
    | [] => none
    | _ :: t => (firstOccur needle t).map (· + 1)

/-- Python `needle in hay` for strings: contiguous-substring test. -/
def containsSub (hay needle : List Char) : Bool :=
  (firstOccur needle hay).isSome

/-- Python `s.split(sep)[0]`: the text before the first occurrence of the
separator character (the whole string when the separator is absent). -/
def takeBeforeFirst (sep : Char) (s : List Char) : List Char :=
  s.takeWhile (· ≠ sep)

/-- Python `s.split(sep)[-1]`: the text after the last occurrence of the
separator character (the whole string when the separator is absent). -/
def takeAfterLast (sep : Char) (s : List Char) : List Char :=
  (s.reverse.takeWhile (· ≠ sep)).reverse

/-! ### Configuration constants (`src/config/config.py`) -/

def BATCH_SIZE : Nat := 3
def DELAY_BETWEEN_REQUESTS : Nat := 8
def MAX_RETRIES : Nat := 5
def INITIAL_BACKOFF : Nat := 10
def MAX_BACKOFF : Nat := 120

def DEFAULT_RESULT_COUNT : Nat := 3
def HIGH_PROFILE_RESULT_COUNT : Nat := 5
def LOW_PROFILE_RESULT_COUNT : Nat := 4
def TOPIC_RESULT_COUNT : Nat := 5

def HIGH_PROFILE_ENTITIES : List (List Char) :=
  ["J.P. Morgan Chase & Co.".data,
   "Morgan Stanley".data,
   "Wells Fargo & Company".data,
   "Fidelity Investments".data,
   "Accenture".data,
   "Infosys".data,
   "Verisk".data,
   "Prudential Financial, Inc.".data,
   "MassMutual".data,
   "USAA".data,
   "Ameriprise Financial, Inc.".data,
   "Nationwide Mutual Insurance Company".data]

def LOW_PROFILE_ENTITIES : List (List Char) :=
  ["Advisors Excel, LLC".data,
   "Legal & General America".data,
   "Kuvare Holdings, Inc.".data,
   "Nassau Financial Group".data,
   "Wellabe, Inc.".data,
   "Arcus Holdings".data,
   "ACAP".data,
   "Atlantic Coast Life Insurance Company".data,
   "Benekiva".data,
   "FIDx".data,
   "Hexure".data,
   "LIDP".data,
   "LUMA".data,
   "Sureify".data]

/-! ### Relevance scorer (`src/utils.py:154-217`,
duplicated verbatim in `src/collect_all_news.py:162-225`) -/

/-- The variation set built by `calculate_relevance_score`:
full entity name and "main" form (text before the first comma, then
before the first ampersand, then after the last colon), both lower-cased,
plus hand-curated aliases for two special-cased entities. -/
def entityVariations (entity_name : List Char) : List (List Char) :=
  let main_entity_parts := pyStrip (takeBeforeFirst ',' entity_name)
  let main_entity₁ := pyStrip (takeBeforeFirst '&' main_entity_parts)
  let main_entity := pyStrip (takeAfterLast ':' main_entity₁)
  let base := [pyLower entity_name, pyLower main_entity]
  if containsSub entity_name "J.P. Morgan".data then
    base ++ ["jpmorgan".data, "jp morgan".data, "j.p. morgan".data]
  else if containsSub entity_name "Legal & General".data then
    base ++ ["legal and general".data, "l&g".data]
  else
    base

/-- The title loop of `calculate_relevance_score`: for the first variation
contained in the lower-cased title award 0.6, raised to 0.7 when the match
position is below `len(title) // 3`; later variations are ignored (`break`). -/
def titleScoreLoop : List (List Char) → List Char → ℚ
  | [], _ => 0
  | v :: rest, title_lower =>
    match firstOccur v title_lower with
    | some pos => if pos < title_lower.length / 3 then 0.7 else 0.6
    | none => titleScoreLoop rest title_lower

/-- The excerpt loop of `calculate_relevance_score`: for the first variation
contained in the lower-cased excerpt award an excerpt score of 0.3 and a
position score of 0.2 when the match position is below `len(excerpt) // 4`,
0.1 when below `len(excerpt) // 2`, else 0; returns
`(excerpt_score, position_score)`. -/
def excerptScoreLoop : List (List Char) → List Char → ℚ × ℚ
  | [], _ => (0, 0)
  | v :: rest, excerpt_lower =>
    match firstOccur v excerpt_lower with
    | some pos =>
      (0.3, if pos < excerpt_lower.length / 4 then 0.2
            else if pos < excerpt_lower.length / 2 then 0.1 else 0)
    | none => excerptScoreLoop rest excerpt_lower

/-- `calculate_relevance_score(title, excerpt, entity_name)`
(`src/utils.py:154-217`): title score plus excerpt score plus position
score, capped at 1.0. -/
def calculate_relevance_score (title excerpt entity_name : List Char) : ℚ :=
  let title_lower := pyLower title
  let excerpt_lower := pyLower excerpt
  let entity_variations := entityVariations entity_name
  let title_score := titleScoreLoop entity_variations title_lower
  let scores := excerptScoreLoop entity_variations excerpt_lower
  let final_score := title_score + scores.1 + scores.2
  min final_score 1

/-! ### Article filtering (`src/collect_all_news.py:228-269`) -/

/-- An article dictionary as produced by the search client's response
parser (`src/services/search_service.py:90-96`). -/
structure Article where
  title : List Char
  body : List Char
  href : List Char
  source : List Char
  date : List Char
deriving DecidableEq, Repr

/-- The relevance score attached to an article for its owning entity
(`src/collect_all_news.py:249`). -/
def articleScore (entity : List Char) (a : Article) : ℚ :=
  calculate_relevance_score a.title a.body entity

/-- Python `max(xs, key=f)` on a non-empty list: the first element whose
key is maximal (later elements replace the accumulator only when strictly
greater); `none` on the empty list (where Python raises). -/
def pyMaxBy {α : Type} (f : α → ℚ) : List α → Option α
  | [] => none
  | h :: t => some (t.foldl (fun acc x => if f acc < f x then x else acc) h)

/-- The per-entity body of `filter_relevant_articles`
(`src/collect_all_news.py:241-267`): keep articles scoring at least
`min_relevance`; when none survive but the raw list is non-empty, keep
the single most relevant article. -/
def filterEntityArticles (entity : List Char) (articles : List Article)
    (min_relevance : ℚ) : List Article :=
  let relevant_articles := articles.filter fun a => min_relevance ≤ articleScore entity a
  if relevant_articles = [] ∧ articles ≠ [] then
    match pyMaxBy (articleScore entity) articles with
    | some most_relevant => [most_relevant]
    | none => []
  else relevant_articles

/-- `filter_relevant_articles(news_dict, min_relevance=0.5)`
(`src/collect_all_news.py:228-269`): apply the per-entity filter to every
entry of the entity → articles mapping (modelled as an association list). -/
def filter_relevant_articles (news : List (List Char × List Article))
    (min_relevance : ℚ) : List (List Char × List Article) :=
  news.map fun p => (p.1, filterEntityArticles p.1 p.2 min_relevance)

/-! ### Deduplication (`src/collect_all_news.py:530-583`) -/

/-- One row of the tabular article record set built by
`convert_to_dataframe` (`src/collect_all_news.py:281-290`), together with
the `article_id` column that `remove_duplicate_news` adds in place
(`none` = column absent). -/
structure Row where
  client : List Char
  title : List Char
  url : List Char
  date : List Char
  source : List Char
  excerpt : List Char
  image : List Char
  relevance : ℚ
  articleId : Option (List Char)
deriving DecidableEq, Repr

/-- `create_id(row)` (`src/collect_all_news.py:549-561`): lower-cased
trimmed title, joined by a bar to the URL with query string and fragment
stripped. -/
def create_id (row : Row) : List Char :=
  let title := pyLower (pyStrip row.title)
  let url := pyLower (pyStrip row.url)
  let url₁ := if containsSub url ['?'] then takeBeforeFirst '?' url else url
  let url₂ := if containsSub url₁ ['#'] then takeBeforeFirst '#' url₁ else url₁
  title ++ ['|'] ++ url₂

/-- `remove_duplicate_news(current_df, previous_df)`
(`src/collect_all_news.py:530-583`).  The pandas code mutates both input
DataFrames in place by assigning an `article_id` column, so the embedding
returns `(result, current after the call, previous after the call)`. -/
def remove_duplicate_news (current_df previous_df : List Row) :
    List Row × List Row × List Row :=
  if previous_df = [] ∨ current_df = [] then (current_df, current_df, previous_df)
  else
    let current' := current_df.map fun r => { r with articleId := some (create_id r) }
    let previous' := previous_df.map fun r => { r with articleId := some (create_id r) }
    let previous_ids := previous'.map fun r => r.articleId
    let deduplicated := current'.filter fun r => r.articleId ∉ previous_ids
    (deduplicated.map fun r => { r with articleId := none }, current', previous')

/-! ### Search client (`src/services/search_service.py`) -/

/-- The time filter vocabulary (`d`/`w`/`m`/`y`; `none` models Python
`None`). -/
inductive TimeFilter where
  | d | w | m | y
deriving DecidableEq, Repr

/-- A raw news item from the provider's JSON `results` array
(`src/services/search_service.py:89-96`). -/
structure RawItem where
  title : List Char
  excerpt : List Char
  url : List Char
  source : List Char
  date : List Char
deriving DecidableEq, Repr

/-- The dictionary built from one raw item
(`src/services/search_service.py:90-96`). -/
def toNewsDict (item : RawItem) : Article :=
  { title := item.title, body := item.excerpt, href := item.url,
    source := item.source, date := item.date }

/-- Outcome of one underlying network attempt.  `requestFailure` models a
raised `requests.exceptions.RequestException`; its `responseStatus` is the
status code of the bound local `response` (when `raise_for_status` threw),
or `none` when `requests.get` itself threw and `response` was never
assigned in that call frame. -/
inductive CallOutcome where
  | success (items : List RawItem)
  | parseFailure
  | requestFailure (msg : List Char) (responseStatus : Option Nat)
deriving DecidableEq, Repr

/-- A Python exception escaping `search_news` to its caller. -/
inductive PyError where
  | unboundLocalError
deriving DecidableEq, Repr

/-- Externally observable steps of one `search_news` call: the parameters
of each underlying query, and each backoff sleep with its attempt number
and pre-jitter wait in seconds (the ±10% jitter itself is random and not
modelled). -/
inductive SearchEvent where
  | request (query : List Char) (maxResults : Nat) (timeFilter : Option TimeFilter)
  | sleep (attempt : Nat) (baseWait : Nat)
deriving DecidableEq, Repr

/-- `self.rate_limit_indicators`
(`src/services/search_service.py:29-38`). -/
def rateLimitIndicators : List (List Char) :=
  ["rate limit".data, "too many requests".data, "429".data, "throttl".data,
   "blocked".data, "denied".data, "limit exceeded".data, "try again later".data]

/-- The pre-jitter wait computed in both retry sites
(`src/services/search_service.py:105` and `:120`):
`min(INITIAL_BACKOFF * (2 ** (attempt - 1)), MAX_BACKOFF)`. -/
def baseWaitFor (attempt : Nat) : Nat :=
  min (INITIAL_BACKOFF * 2 ^ (attempt - 1)) MAX_BACKOFF

/-- The fallback time filter (`src/services/search_service.py:134`):
`'m' if time_filter != 'm' else 'y'`. -/
def fallbackTime (time_filter : Option TimeFilter) : Option TimeFilter :=
  if time_filter ≠ some TimeFilter.m then some TimeFilter.m else some TimeFilter.y

/-- `SearchService.search_news(query, max_results, time_filter, attempt)`
(`src/services/search_service.py:40-138`), with the outcome of the
network attempt numbered `n` given by `env n`.  Returns the Python result
(a list of article dictionaries, or an escaping exception) together with
the trace of issued requests and backoff sleeps.  The
`is_rate_limit or response.status_code == 429` test at line 117
short-circuits; when `is_rate_limit` is false and `response` was never
bound, evaluating `response.status_code` raises `UnboundLocalError`. -/
def search_news (env : Nat → CallOutcome) (query : List Char) (max_results : Nat)
    (time_filter : Option TimeFilter) (attempt : Nat) :
    Except PyError (List Article) × List SearchEvent :=
  let ev := SearchEvent.request query max_results time_filter
  match env attempt with
  | .success items =>
    (.ok ((items.take max_results).map toNewsDict), [ev])
  | .parseFailure =>
    if h : attempt < MAX_RETRIES then
      let r := search_news env query max_results time_filter (attempt + 1)
      (r.1, ev :: .sleep attempt (baseWaitFor attempt) :: r.2)
    else
      (.ok [], [ev])
  | .requestFailure msg status =>
    let error_msg := pyLower msg
    let is_rate_limit := rateLimitIndicators.any fun ind => containsSub error_msg ind
    let cond : Except PyError Bool :=
      if is_rate_limit then .ok true
      else
        match status with
        | none => .error .unboundLocalError
        | some s => .ok (s == 429)
    match cond with
    | .error e => (.error e, [ev])
    | .ok rateLimited =>
      if h : rateLimited ∧ attempt < MAX_RETRIES then
        let r := search_news env query max_results time_filter (attempt + 1)
        (r.1, ev :: .sleep attempt (baseWaitFor attempt) :: r.2)
      else if h' : attempt < MAX_RETRIES then
        let r := search_news env query max_results (fallbackTime time_filter) (attempt + 1)
        (r.1, ev :: r.2)
      else
        (.ok [], [ev])
termination_by MAX_RETRIES - attempt
decreasing_by
  · omega
  · omega
  · omega

/-- Parameter discipline of an issued request relative to the caller's
arguments: same query text, same `max_results`, and a time filter that is
either the caller's own or one of the two fallback filters month/year. -/
def requestParamsOk (q : List Char) (mr : Nat) (tf : Option TimeFilter) :
    SearchEvent → Prop
  | .request q' mr' tf' =>
    q' = q ∧ mr' = mr ∧
      (tf' = tf ∨ tf' = some TimeFilter.m ∨ tf' = some TimeFilter.y)
  | .sleep _ _ => True

/-- The pre-jitter waits of the sleep events of a trace, in order. -/
def sleepWaits (evs : List SearchEvent) : List Nat :=
  evs.filterMap fun e =>
    match e with
    | .sleep _ w => some w
    | _ => none

/-- Scenario: `requests.get` itself raises on every attempt (connection
timeout), so the local `response` is never bound and the error text
contains no rate-limit indicator. -/
def envConnectionTimeout : Nat → CallOutcome :=
  fun _ => .requestFailure "Connection timed out".data none

/-- Scenario: every attempt fails with an HTTP 429 rate-limit error
(`raise_for_status` raised, so `response` is bound with status 429). -/
def envAlwaysRateLimited : Nat → CallOutcome :=
  fun _ => .requestFailure "429 Client Error: Too Many Requests for url".data (some 429)

/-- Scenario: the first attempt fails with an HTTP 500 error (no
rate-limit indicator in the text), every later attempt succeeds with an
empty result list. -/
def envServerErrorThenOk : Nat → CallOutcome :=
  fun attempt =>
    if attempt = 1 then .requestFailure "500 Server Error for url".data (some 500)
    else .success []

/-! ### Batch collector (`src/collect_all_news.py:59-159`) -/

/-- The duck-typed entity representation: clients and competitors are
`(name, query)` 2-tuples, topics are `(category, name, query)` 3-tuples
(`src/utils.py:37-53`). -/
inductive EntityTuple where
  | pair (name query : List Char)
  | triple (category name query : List Char)
deriving DecidableEq, Repr

/-- `get_entity_name` (`src/utils.py:55-67`): first element of a 2-tuple,
second element of a 3-tuple. -/
def get_entity_name : EntityTuple → List Char
  | .pair name _ => name
  | .triple _ name _ => name

/-- `get_entity_query` (`src/utils.py:69-87`): third element of a
3-tuple; for a 2-tuple, `entity_tuple[1] or entity_tuple[0]` (the empty
query string is falsy, so the name is used instead). -/
def get_entity_query : EntityTuple → List Char
  | .pair name query => if query ≠ [] then query else name
  | .triple _ _ query => query

/-- `get_topic_category` (`src/utils.py:89-101`): first element of a
3-tuple, `"General"` otherwise. -/
def get_topic_category : EntityTuple → List Char
  | .pair _ _ => "General".data
  | .triple category _ _ => category

/-- Kind of entity collection being processed (the `entity_type` string
parameter of `collect_news_for_batches`). -/
inductive EntityKind where
  | client | competitor | topic
deriving DecidableEq, Repr

/-- The entity name used in the batch loop
(`src/collect_all_news.py:89-98`): for topics, the second tuple element
(for a 2-tuple this is the query, mirroring the duck typing); otherwise
`get_entity_name`. -/
def loopEntityName (entity_type : EntityKind) (e : EntityTuple) : List Char :=
  if entity_type = .topic then
    match e with
    | .pair _ q => q
    | .triple _ name _ => name
  else get_entity_name e

/-- The display name under which results are keyed
(`src/collect_all_news.py:95-99`): `"{category}: {name}"` for topics,
the entity name otherwise. -/
def fullEntityName (entity_type : EntityKind) (e : EntityTuple) : List Char :=
  if entity_type = .topic then
    get_topic_category e ++ ": ".data ++ loopEntityName entity_type e
  else loopEntityName entity_type e

/-- Membership test against the high-profile list
(`src/collect_all_news.py:51` and `:149`): Python
`any(high in entity_name for high in HIGH_PROFILE_ENTITIES)` is a
substring test. -/
def isHighProfile (entity_name : List Char) : Bool :=
  HIGH_PROFILE_ENTITIES.any fun high => containsSub entity_name high

/-- Externally observable steps of a batch collection run: one search per
entity (keyed by display name, with the resolved query) and the pacing
sleeps; a sleep records whether the 1.5× high-profile multiplier was
applied to its delay. -/
inductive CollectEvent where
  | search (full_entity_name query : List Char)
  | sleep (highProfileDelay : Bool)
deriving DecidableEq, Repr

/-- The search event the loop body emits for one entity. -/
def searchEventFor (entity_type : EntityKind) (e : EntityTuple) : CollectEvent :=
  .search (fullEntityName entity_type e) (get_entity_query e)

/-- The pacing-sleep event the loop body emits after one entity
(`src/collect_all_news.py:144-153`): delay with ±20% jitter, multiplied
by 1.5 when the entity type is not topic and the entity name matches the
high-profile list. -/
def sleepEventFor (entity_type : EntityKind) (e : EntityTuple) : CollectEvent :=
  .sleep (decide (entity_type ≠ .topic) && isHighProfile (loopEntityName entity_type e))

/-- The pacing/search trace of `collect_news_for_batches`
(`src/collect_all_news.py:59-159`): entities are processed in consecutive
batches of `batch_size`; after each entity the pacing sleep runs unless
`entity_tuple == batch_entities[-1] and batch_idx == num_batches - 1`
(a value-equality test against the final batch's last element). -/
def collect_news_for_batches (entity_list : List EntityTuple) (batch_size : Nat)
    (entity_type : EntityKind) : List CollectEvent :=
  let num_batches := (entity_list.length + batch_size - 1) / batch_size
  (List.range num_batches).flatMap fun batch_idx =>
    let batch_entities := (entity_list.drop (batch_idx * batch_size)).take batch_size
    batch_entities.flatMap fun entity_tuple =>
      if batch_entities.getLast? = some entity_tuple ∧ batch_idx = num_batches - 1 then
        [searchEventFor entity_type entity_tuple]
      else
        [searchEventFor entity_type entity_tuple, sleepEventFor entity_type entity_tuple]

/-- The pacing discipline the specification describes: the pacing sleep
occurs exactly once between every pair of adjacent entities of the whole
run (within and across batches) and never before the first or after the
last entity. -/
def pacingIdealTrace (entity_type : EntityKind) (entity_list : List EntityTuple) :
    List CollectEvent :=
  ((entity_list.map fun e => [searchEventFor entity_type e, sleepEventFor entity_type e]).flatten).dropLast

/-! ### Claim-side description of the scorer components (§4.2 / claim C8) -/

/-- The title component as the specification words it: 0.6 when any
variation occurs in the lower-cased title — only the first matching
variation counting — raised to 0.7 exactly when the match position lies
within the first third of the title. -/
def titleComponentSpec (vars : List (List Char)) (title_lower : List Char) : ℚ :=
  match vars.find? fun v => containsSub title_lower v with
  | none => 0
  | some v =>
    match firstOccur v title_lower with
    | none => 0
    | some pos => if pos < title_lower.length / 3 then 0.7 else 0.6

/-- The excerpt component as the specification words it: 0.3 when any
variation occurs in the lower-cased excerpt (first match counting), plus
a position bonus of 0.2 within the first quarter, 0.1 within the first
half, 0 otherwise. -/
def excerptComponentSpec (vars : List (List Char)) (excerpt_lower : List Char) : ℚ :=
  match vars.find? fun v => containsSub excerpt_lower v with
  | none => 0
  | some v =>
    match firstOccur v excerpt_lower with
    | none => 0
    | some pos =>
      0.3 + (if pos < excerpt_lower.length / 4 then 0.2
             else if pos < excerpt_lower.length / 2 then 0.1 else 0)

/-- The relevance score assembled from the claim's components: title
component plus excerpt component, capped at 1. -/
def relevance_score_spec (title excerpt entity_name : List Char) : ℚ :=
  min (titleComponentSpec (entityVariations entity_name) (pyLower title) +
       excerptComponentSpec (entityVariations entity_name) (pyLower excerpt)) 1

/-! ## Theorems -/

/-! ### Scorer lemmas -/

lemma titleScoreLoop_cases (vars : List (List Char)) (t : List Char) :
    titleScoreLoop vars t = 0 ∨ titleScoreLoop vars t = 0.6 ∨ titleScoreLoop vars t = 0.7 := by
  induction vars with
  | nil => exact Or.inl rfl
  | cons v rest ih =>
    cases hv : firstOccur v t with
    | none => simpa [titleScoreLoop, hv] using ih
    | some pos =>
      simp only [titleScoreLoop, hv]
      by_cases h : pos < t.length / 3 <;> simp [h]

lemma excerptScoreLoop_cases (vars : List (List Char)) (t : List Char) :
    ((excerptScoreLoop vars t).1 = 0 ∧ (excerptScoreLoop vars t).2 = 0) ∨
    ((excerptScoreLoop vars t).1 = 0.3 ∧
      ((excerptScoreLoop vars t).2 = 0 ∨ (excerptScoreLoop vars t).2 = 0.1 ∨
       (excerptScoreLoop vars t).2 = 0.2)) := by
  induction vars with
  | nil => exact Or.inl ⟨rfl, rfl⟩
  | cons v rest ih =>
    cases hv : firstOccur v t with
    | none => simpa [excerptScoreLoop, hv] using ih
    | some pos =>
      simp only [excerptScoreLoop, hv]
      by_cases h1 : pos < t.length / 4
      · simp [h1]
      · by_cases h2 : pos < t.length / 2 <;> simp [h1, h2]

lemma titleScoreLoop_eq_spec (vars : List (List Char)) (t : List Char) :
    titleScoreLoop vars t = titleComponentSpec vars t := by
  induction vars with
  | nil => rfl
  | cons v rest ih =>
    cases hv : firstOccur v t with
    | none =>
      have hc : (containsSub t v) = false := by simp [containsSub, hv]
      simp only [titleScoreLoop, titleComponentSpec, hv, List.find?]
      rw [hc]
      exact ih
    | some pos =>
      have hc : (containsSub t v) = true := by simp [containsSub, hv]
      simp only [titleScoreLoop, titleComponentSpec, List.find?]
      rw [hc]
      simp [hv]

lemma excerptScoreLoop_eq_spec (vars : List (List Char)) (t : List Char) :
    (excerptScoreLoop vars t).1 + (excerptScoreLoop vars t).2 = excerptComponentSpec vars t := by
  induction vars with
  | nil => simp [excerptScoreLoop, excerptComponentSpec]
  | cons v rest ih =>
    cases hv : firstOccur v t with
    | none =>
      have hc : (containsSub t v) = false := by simp [containsSub, hv]
      simp only [excerptScoreLoop, excerptComponentSpec, hv, List.find?]
      rw [hc]
      exact ih
    | some pos =>
      have hc : (containsSub t v) = true := by simp [containsSub, hv]
      simp only [excerptScoreLoop, excerptComponentSpec, List.find?]
      rw [hc]
      simp [hv]

lemma titleScoreLoop_of_all_miss (vars : List (List Char)) (t : List Char)
    (h : ∀ v ∈ vars, containsSub t v = false) :
    titleScoreLoop vars t = 0 := by
  induction vars with
  | nil => rfl
  | cons v rest ih =>
    have hv : firstOccur v t = none := by
      have := h v (List.mem_cons_self v rest)
      simpa [containsSub, Option.isSome_iff_exists] using this
    simp only [titleScoreLoop, hv]
    exact ih fun w hw => h w (List.mem_cons_of_mem v hw)

lemma titleScoreLoop_head_hit (v : List Char) (rest : List (List Char)) (t : List Char)
    (h : containsSub t v = true) :
    0.6 ≤ titleScoreLoop (v :: rest) t := by
  obtain ⟨pos, hv⟩ : ∃ pos, firstOccur v t = some pos := by
    simpa [containsSub, Option.isSome_iff_exists] using h
  simp only [titleScoreLoop, hv]
  split <;> norm_num

lemma entityVariations_head (n : List Char) :
    ∃ rest, entityVariations n = pyLower n :: rest := by
  unfold entityVariations
  split
  · exact ⟨_, rfl⟩
  · split
    · exact ⟨_, rfl⟩
    · exact ⟨_, rfl⟩

/-- C3: for every title, excerpt and entity name, the relevance score
returned by `calculate_relevance_score` lies between 0 and 1. -/
theorem relevance_score_bounds (title excerpt entity_name : List Char) :
    0 ≤ calculate_relevance_score title excerpt entity_name ∧
    calculate_relevance_score title excerpt entity_name ≤ 1 := by
  have ht := titleScoreLoop_cases (entityVariations entity_name) (pyLower title)
  have he := excerptScoreLoop_cases (entityVariations entity_name) (pyLower excerpt)
  simp only [calculate_relevance_score]
  constructor
  · apply le_min _ zero_le_one
    rcases ht with h | h | h <;>
      rcases he with ⟨h1, h2⟩ | ⟨h1, h2 | h2 | h2⟩ <;>
      rw [h, h1, h2] <;> norm_num
  · exact min_le_right _ _

/-- C8: `calculate_relevance_score` computes exactly the component
breakdown the claim describes — a title component of 0.6 for a variation
occurring in the lower-cased title, raised to 0.7 exactly when the first
match lies within the first third, only the first matching variation
counting; plus an excerpt component of 0.3 with a position bonus of 0.2
in the first quarter and 0.1 in the first half. -/
theorem relevance_score_eq_component_spec (title excerpt entity_name : List Char) :
    calculate_relevance_score title excerpt entity_name =
      relevance_score_spec title excerpt entity_name := by
  simp only [calculate_relevance_score, relevance_score_spec]
  rw [add_assoc, titleScoreLoop_eq_spec, excerptScoreLoop_eq_spec]

/-- C7 counterexample: for the entity "Acme, Inc.", the article whose
title contains the full entity name scores 0.9 while the otherwise
identical article whose title contains only the derived main form "acme"
(the entity name itself appearing only in the excerpt) scores 1.0, so the
claimed strict dominance fails. -/
theorem relevance_title_vs_excerpt_counterexample :
    containsSub (pyLower "Special report on quarterly results: Acme, Inc.".data)
        (pyLower "Acme, Inc.".data) = true ∧
    containsSub (pyLower "Acme update".data) (pyLower "Acme, Inc.".data) = false ∧
    containsSub
        (pyLower "the quarterly figures released today exceeded expectations at acme, inc.".data)
        (pyLower "Acme, Inc.".data) = true ∧
    calculate_relevance_score "Special report on quarterly results: Acme, Inc.".data
        "the quarterly figures released today exceeded expectations at acme, inc.".data
        "Acme, Inc.".data
      < calculate_relevance_score "Acme update".data
        "the quarterly figures released today exceeded expectations at acme, inc.".data
        "Acme, Inc.".data := by
  refine ⟨by decide, by decide, by decide, ?_⟩
  rw [show calculate_relevance_score "Special report on quarterly results: Acme, Inc.".data
      "the quarterly figures released today exceeded expectations at acme, inc.".data
      "Acme, Inc.".data = min (0.6 + 0.3 + 0 : ℚ) 1 from rfl]
  rw [show calculate_relevance_score "Acme update".data
      "the quarterly figures released today exceeded expectations at acme, inc.".data
      "Acme, Inc.".data = min (0.7 + 0.3 + 0 : ℚ) 1 from rfl]
  rw [min_def, min_def]
  norm_num

/-- C7 (amended): an article whose title contains the entity name scores
strictly higher than an otherwise-identical article whose title contains
no variation of the entity name (the entity name appearing at most in the
excerpt). -/
theorem relevance_title_match_beats_excerpt_only (t₁ t₂ excerpt n : List Char)
    (h₁ : containsSub (pyLower t₁) (pyLower n) = true)
    (h₂ : ∀ v ∈ entityVariations n, containsSub (pyLower t₂) v = false) :
    calculate_relevance_score t₂ excerpt n < calculate_relevance_score t₁ excerpt n := by
  obtain ⟨rest, hvars⟩ := entityVariations_head n
  have hz : titleScoreLoop (entityVariations n) (pyLower t₂) = 0 :=
    titleScoreLoop_of_all_miss _ _ h₂
  have hge : 0.6 ≤ titleScoreLoop (entityVariations n) (pyLower t₁) := by
    rw [hvars]
    exact titleScoreLoop_head_hit (pyLower n) rest (pyLower t₁) h₁
  have he := excerptScoreLoop_cases (entityVariations n) (pyLower excerpt)
  set p := excerptScoreLoop (entityVariations n) (pyLower excerpt) with hp
  have hs0 : 0 ≤ p.1 + p.2 := by
    rcases he with ⟨h1, h2⟩ | ⟨h1, h2 | h2 | h2⟩ <;> rw [h1, h2] <;> norm_num
  have hs5 : p.1 + p.2 ≤ 0.5 := by
    rcases he with ⟨h1, h2⟩ | ⟨h1, h2 | h2 | h2⟩ <;> rw [h1, h2] <;> norm_num
  simp only [calculate_relevance_score]
  rw [hz]
  rw [min_def, min_def]
  split
  · split
    · nlinarith [hge]
    · nlinarith [hs5]
  · split
    · nlinarith [hs0, hge]
    · nlinarith [hs5]

/-- Witness for the amended C7 at concrete inputs. -/
theorem relevance_title_match_beats_excerpt_only_witness :
    calculate_relevance_score "Industry roundup".data "Acme Corp earnings".data "Acme Corp".data
      < calculate_relevance_score "Acme Corp launches new product".data
        "Acme Corp earnings".data "Acme Corp".data :=
  relevance_title_match_beats_excerpt_only _ _ _ _ (by decide) (by decide)

/-! ### Filter lemmas -/

lemma pyFold_mem {α : Type} (f : α → ℚ) :
    ∀ (t : List α) (acc : α),
      t.foldl (fun acc x => if f acc < f x then x else acc) acc ∈ acc :: t := by
  intro t
  induction t with
  | nil => intro acc; simp
  | cons x xs ih =>
    intro acc
    have h := ih (if f acc < f x then x else acc)
    rcases List.mem_cons.mp h with h' | h'
    · rw [List.foldl_cons, h']
      by_cases hc : f acc < f x <;> simp [hc]
    · rw [List.foldl_cons]
      exact List.mem_cons_of_mem _ (List.mem_cons_of_mem _ h')

lemma pyFold_le {α : Type} (f : α → ℚ) :
    ∀ (t : List α) (acc : α) (a : α), a ∈ acc :: t →
      f a ≤ f (t.foldl (fun acc x => if f acc < f x then x else acc) acc) := by
  intro t
  induction t with
  | nil =>
    intro acc a ha
    rw [List.mem_singleton.mp ha]
    simp
  | cons x xs ih =>
    intro acc a ha
    have hacc : f acc ≤ f (if f acc < f x then x else acc) := by
      by_cases hc : f acc < f x <;> simp [hc]
      exact le_of_lt hc
    have hx : f x ≤ f (if f acc < f x then x else acc) := by
      by_cases hc : f acc < f x <;> simp [hc]
      exact not_lt.mp hc
    have htail : f (if f acc < f x then x else acc) ≤
        f (xs.foldl (fun acc x => if f acc < f x then x else acc)
            (if f acc < f x then x else acc)) :=
      ih _ _ (List.mem_cons_self _ _)
    rw [List.foldl_cons]
    rcases List.mem_cons.mp ha with rfl | ha'
    · exact le_trans hacc htail
    · rcases List.mem_cons.mp ha' with rfl | ha''
      · exact le_trans hx htail
      · exact ih _ _ (List.mem_cons_of_mem _ ha'')

lemma pyMaxBy_spec {α : Type} (f : α → ℚ) (l : List α) (hl : l ≠ []) :
    ∃ b, pyMaxBy f l = some b ∧ b ∈ l ∧ ∀ a ∈ l, f a ≤ f b := by
  match l, hl with
  | h :: t, _ =>
    refine ⟨_, rfl, pyFold_mem f t h, ?_⟩
    intro a ha
    exact pyFold_le f t h a ha

/-- C4: for an entity with a non-empty raw article list in which every
article scores below the threshold, the filtered output for that entity
is exactly the single highest-scoring article — never empty. -/
theorem filter_keeps_best_when_all_below (news : List (List Char × List Article))
    (min_relevance : ℚ) (entity : List Char) (articles : List Article)
    (hmem : (entity, articles) ∈ news) (hne : articles ≠ [])
    (hbelow : ∀ a ∈ articles, articleScore entity a < min_relevance) :
    ∃ best, best ∈ articles ∧
      (∀ a ∈ articles, articleScore entity a ≤ articleScore entity best) ∧
      filterEntityArticles entity articles min_relevance = [best] ∧
      (entity, [best]) ∈ filter_relevant_articles news min_relevance := by
  obtain ⟨best, hmax, hbmem, hall⟩ := pyMaxBy_spec (articleScore entity) articles hne
  have hfilter : articles.filter (fun a => min_relevance ≤ articleScore entity a) = [] := by
    rw [List.filter_eq_nil_iff]
    intro a ha
    simpa using not_le.mpr (hbelow a ha)
  have hout : filterEntityArticles entity articles min_relevance = [best] := by
    unfold filterEntityArticles
    rw [hfilter, if_pos ⟨rfl, hne⟩, hmax]
  refine ⟨best, hbmem, hall, hout, ?_⟩
  have := List.mem_map_of_mem
    (fun p : List Char × List Article => (p.1, filterEntityArticles p.1 p.2 min_relevance)) hmem
  simpa [filter_relevant_articles, hout] using this

/-- Witness for C4 at a concrete single-article entity with the default
threshold 0.5. -/
theorem filter_keeps_best_when_all_below_witness :
    ∃ best, best ∈ [Article.mk "foo".data "bar".data "u".data "s".data "d".data] ∧
      (∀ a ∈ [Article.mk "foo".data "bar".data "u".data "s".data "d".data],
        articleScore "Acme".data a ≤ articleScore "Acme".data best) ∧
      filterEntityArticles "Acme".data
        [Article.mk "foo".data "bar".data "u".data "s".data "d".data] 0.5 = [best] ∧
      ("Acme".data, [best]) ∈ filter_relevant_articles
        [("Acme".data, [Article.mk "foo".data "bar".data "u".data "s".data "d".data])] 0.5 :=
  filter_keeps_best_when_all_below _ 0.5 _ _ (List.mem_singleton.mpr rfl)
    (List.cons_ne_nil _ _)
    (by
      intro a ha
      rw [List.mem_singleton.mp ha]
      rw [show articleScore "Acme".data
          (Article.mk "foo".data "bar".data "u".data "s".data "d".data)
          = min (0 + 0 + 0 : ℚ) 1 from rfl]
      rw [min_def]
      norm_num)

/-! ### Deduplication theorems -/

/-- C5: deduplicating a table against itself yields an empty table —
every row's identity key is present in the previous-key set. -/
theorem dedupe_self_is_empty (t : List Row) : (remove_duplicate_news t t).1 = [] := by
  by_cases ht : t = []
  · subst ht
    simp [remove_duplicate_news]
  · unfold remove_duplicate_news
    rw [if_neg (by simp [ht])]
    simp only []
    have hfil : (t.map fun r => { r with articleId := some (create_id r) }).filter
        (fun r => r.articleId ∉ (t.map fun r =>
          ({ r with articleId := some (create_id r) } : Row)).map (fun r => r.articleId)) = [] := by
      rw [List.filter_eq_nil_iff]
      intro r hr
      obtain ⟨r₀, hr₀, rfl⟩ := List.mem_map.mp hr
      simp only [List.map_map, decide_not, Bool.not_eq_true', decide_eq_false_iff_not,
        Decidable.not_not]
      exact List.mem_map_of_mem _ hr₀
    rw [hfil]
    rfl

/-- C10: for non-empty inputs, `remove_duplicate_news` leaves the
temporary `article_id` column on both caller tables while the returned
deduplicated table does not carry it. -/
theorem dedupe_mutates_caller_tables (cur prev : List Row)
    (hc : cur ≠ []) (hp : prev ≠ []) :
    (∀ r ∈ (remove_duplicate_news cur prev).2.1, (r.articleId).isSome = true) ∧
    (∀ r ∈ (remove_duplicate_news cur prev).2.2, (r.articleId).isSome = true) ∧
    (∀ r ∈ (remove_duplicate_news cur prev).1, r.articleId = none) := by
  unfold remove_duplicate_news
  rw [if_neg (by simp [hc, hp])]
  refine ⟨?_, ?_, ?_⟩
  · intro r hr
    obtain ⟨r₀, _, rfl⟩ := List.mem_map.mp hr
    rfl
  · intro r hr
    obtain ⟨r₀, _, rfl⟩ := List.mem_map.mp hr
    rfl
  · intro r hr
    obtain ⟨r₀, _, rfl⟩ := List.mem_map.mp hr
    rfl

/-- Witness for C10 at concrete one-row tables. -/
theorem dedupe_mutates_caller_tables_witness :
    (∀ r ∈ (remove_duplicate_news
        [Row.mk "c".data "T".data "u".data "d".data "s".data "e".data "i".data 1 none]
        [Row.mk "c".data "U".data "v".data "d".data "s".data "e".data "i".data 1 none]).2.1,
      (r.articleId).isSome = true) ∧
    (∀ r ∈ (remove_duplicate_news
        [Row.mk "c".data "T".data "u".data "d".data "s".data "e".data "i".data 1 none]
        [Row.mk "c".data "U".data "v".data "d".data "s".data "e".data "i".data 1 none]).2.2,
      (r.articleId).isSome = true) ∧
    (∀ r ∈ (remove_duplicate_news
        [Row.mk "c".data "T".data "u".data "d".data "s".data "e".data "i".data 1 none]
        [Row.mk "c".data "U".data "v".data "d".data "s".data "e".data "i".data 1 none]).1,
      r.articleId = none) :=
  dedupe_mutates_caller_tables _ _ (List.cons_ne_nil _ _) (List.cons_ne_nil _ _)

/-! ### Search client lemmas -/

lemma search_news_success (env : Nat → CallOutcome) (q : List Char) (mr : Nat)
    (tf : Option TimeFilter) (a : Nat) (items : List RawItem)
    (h : env a = .success items) :
    search_news env q mr tf a =
      (.ok ((items.take mr).map toNewsDict), [.request q mr tf]) := by
  rw [search_news.eq_def, h]

lemma search_news_unbound (env : Nat → CallOutcome) (q : List Char) (mr : Nat)
    (tf : Option TimeFilter) (a : Nat) (msg : List Char)
    (h : env a = .requestFailure msg none)
    (hrl : (rateLimitIndicators.any fun ind => containsSub (pyLower msg) ind) = false) :
    search_news env q mr tf a = (.error .unboundLocalError, [.request q mr tf]) := by
  rw [search_news.eq_def, h]
  simp [hrl]

lemma search_news_rate_limited_retry (env : Nat → CallOutcome) (q : List Char) (mr : Nat)
    (tf : Option TimeFilter) (a : Nat) (msg : List Char) (st : Option Nat)
    (h : env a = .requestFailure msg st)
    (hrl : (rateLimitIndicators.any fun ind => containsSub (pyLower msg) ind) = true)
    (ha : a < MAX_RETRIES) :
    search_news env q mr tf a =
      ((search_news env q mr tf (a + 1)).1,
        .request q mr tf :: .sleep a (baseWaitFor a) :: (search_news env q mr tf (a + 1)).2) := by
  rw [search_news.eq_def, h]
  simp [hrl, ha]

lemma search_news_rate_limited_exhausted (env : Nat → CallOutcome) (q : List Char) (mr : Nat)
    (tf : Option TimeFilter) (a : Nat) (msg : List Char) (st : Option Nat)
    (h : env a = .requestFailure msg st)
    (hrl : (rateLimitIndicators.any fun ind => containsSub (pyLower msg) ind) = true)
    (ha : ¬ a < MAX_RETRIES) :
    search_news env q mr tf a = (.ok [], [.request q mr tf]) := by
  rw [search_news.eq_def, h]
  simp [hrl, ha]

lemma search_news_fallback (env : Nat → CallOutcome) (q : List Char) (mr : Nat)
    (tf : Option TimeFilter) (a : Nat) (msg : List Char) (s : Nat)
    (h : env a = .requestFailure msg (some s))
    (hrl : (rateLimitIndicators.any fun ind => containsSub (pyLower msg) ind) = false)
    (hs : s ≠ 429) (ha : a < MAX_RETRIES) :
    search_news env q mr tf a =
      ((search_news env q mr (fallbackTime tf) (a + 1)).1,
        .request q mr tf :: (search_news env q mr (fallbackTime tf) (a + 1)).2) := by
  rw [search_news.eq_def, h]
  simp [hrl, hs, ha]

lemma search_news_parse_retry (env : Nat → CallOutcome) (q : List Char) (mr : Nat)
    (tf : Option TimeFilter) (a : Nat)
    (h : env a = .parseFailure) (ha : a < MAX_RETRIES) :
    search_news env q mr tf a =
      ((search_news env q mr tf (a + 1)).1,
        .request q mr tf :: .sleep a (baseWaitFor a) :: (search_news env q mr tf (a + 1)).2) := by
  rw [search_news.eq_def, h]
  simp [ha]

lemma search_news_parse_exhausted (env : Nat → CallOutcome) (q : List Char) (mr : Nat)
    (tf : Option TimeFilter) (a : Nat)
    (h : env a = .parseFailure) (ha : ¬ a < MAX_RETRIES) :
    search_news env q mr tf a = (.ok [], [.request q mr tf]) := by
  rw [search_news.eq_def, h]
  simp [ha]

lemma search_news_status429_retry (env : Nat → CallOutcome) (q : List Char) (mr : Nat)
    (tf : Option TimeFilter) (a : Nat) (msg : List Char)
    (h : env a = .requestFailure msg (some 429))
    (hrl : (rateLimitIndicators.any fun ind => containsSub (pyLower msg) ind) = false)
    (ha : a < MAX_RETRIES) :
    search_news env q mr tf a =
      ((search_news env q mr tf (a + 1)).1,
        .request q mr tf :: .sleep a (baseWaitFor a) :: (search_news env q mr tf (a + 1)).2) := by
  rw [search_news.eq_def, h]
  simp [hrl, ha]

lemma search_news_status_exhausted (env : Nat → CallOutcome) (q : List Char) (mr : Nat)
    (tf : Option TimeFilter) (a : Nat) (msg : List Char) (s : Nat)
    (h : env a = .requestFailure msg (some s))
    (hrl : (rateLimitIndicators.any fun ind => containsSub (pyLower msg) ind) = false)
    (ha : ¬ a < MAX_RETRIES) :
    search_news env q mr tf a = (.ok [], [.request q mr tf]) := by
  rw [search_news.eq_def, h]
  simp [hrl, ha]

lemma baseWaitFor_le : ∀ n, baseWaitFor n ≤ MAX_BACKOFF := fun _ => min_le_right _ _

lemma baseWaitFor_mono {m n : Nat} (h : m ≤ n) : baseWaitFor m ≤ baseWaitFor n := by
  unfold baseWaitFor
  exact min_le_min (Nat.mul_le_mul_left _ (Nat.pow_le_pow_right (by norm_num) (by omega)))
    le_rfl

lemma sleepWaits_mem {evs : List SearchEvent} {w : Nat} (h : w ∈ sleepWaits evs) :
    ∃ n, SearchEvent.sleep n w ∈ evs := by
  obtain ⟨e, he, hfe⟩ := List.mem_filterMap.mp h
  cases e with
  | request q mr tf => simp at hfe
  | sleep n w' =>
    simp at hfe
    exact ⟨n, hfe ▸ he⟩

lemma sleep_invariant_prepend (q : List Char) (mr : Nat) (tf : Option TimeFilter) (a : Nat)
    (evs : List SearchEvent)
    (hinv : ∀ n w, SearchEvent.sleep n w ∈ evs → w = baseWaitFor n ∧ a + 1 ≤ n)
    (hchain : (sleepWaits evs).Chain' (· ≤ ·)) :
    (∀ n w, SearchEvent.sleep n w ∈
        (SearchEvent.request q mr tf :: SearchEvent.sleep a (baseWaitFor a) :: evs) →
      w = baseWaitFor n ∧ a ≤ n) ∧
    (sleepWaits (SearchEvent.request q mr tf ::
      SearchEvent.sleep a (baseWaitFor a) :: evs)).Chain' (· ≤ ·) := by
  constructor
  · intro n w hw
    rcases List.mem_cons.mp hw with hw | hw
    · exact absurd hw (by simp)
    rcases List.mem_cons.mp hw with hw | hw
    · obtain ⟨rfl, rfl⟩ : n = a ∧ w = baseWaitFor a := by
        injection hw with h1 h2
        exact ⟨h1, h2⟩
      exact ⟨rfl, le_rfl⟩
    · obtain ⟨h1, h2⟩ := hinv n w hw
      exact ⟨h1, by omega⟩
  · rw [show sleepWaits (SearchEvent.request q mr tf ::
        SearchEvent.sleep a (baseWaitFor a) :: evs)
        = baseWaitFor a :: sleepWaits evs from rfl]
    rw [List.chain'_cons']
    refine ⟨?_, hchain⟩
    intro b hb
    obtain ⟨n, hn⟩ := sleepWaits_mem (List.mem_of_mem_head? hb)
    obtain ⟨hbw, hna⟩ := hinv n b hn
    rw [hbw]
    exact baseWaitFor_mono (by omega)

/-- Terminal case: with no retries remaining, a `search_news` trace holds
no sleep event. -/
lemma search_news_sleep_terminal (env : Nat → CallOutcome) (q : List Char) (mr : Nat)
    (tf : Option TimeFilter) (a : Nat) (ha : ¬ a < MAX_RETRIES) :
    (∀ n w, SearchEvent.sleep n w ∈ (search_news env q mr tf a).2 →
      w = baseWaitFor n ∧ a ≤ n) ∧
    (sleepWaits (search_news env q mr tf a).2).Chain' (· ≤ ·) := by
  cases henv : env a with
  | success items =>
    rw [search_news_success env q mr tf a items henv]
    exact ⟨fun n w hw => absurd hw (by simp), by simp [sleepWaits]⟩
  | parseFailure =>
    rw [search_news_parse_exhausted env q mr tf a henv ha]
    exact ⟨fun n w hw => absurd hw (by simp), by simp [sleepWaits]⟩
  | requestFailure msg st =>
    by_cases hrl : (rateLimitIndicators.any fun ind => containsSub (pyLower msg) ind) = true
    · rw [search_news_rate_limited_exhausted env q mr tf a msg st henv hrl ha]
      exact ⟨fun n w hw => absurd hw (by simp), by simp [sleepWaits]⟩
    · rw [Bool.not_eq_true] at hrl
      cases st with
      | none =>
        rw [search_news_unbound env q mr tf a msg henv hrl]
        exact ⟨fun n w hw => absurd hw (by simp), by simp [sleepWaits]⟩
      | some s =>
        rw [search_news_status_exhausted env q mr tf a msg s henv hrl ha]
        exact ⟨fun n w hw => absurd hw (by simp), by simp [sleepWaits]⟩

/-- Every sleep event in a `search_news` trace starting at attempt `a`
carries the backoff formula's wait for an attempt number at least `a`,
and the waits appear in non-decreasing order. -/
lemma search_news_sleep_invariant :
    ∀ (k : Nat) (env : Nat → CallOutcome) (q : List Char) (mr : Nat)
      (tf : Option TimeFilter) (a : Nat), MAX_RETRIES - a ≤ k →
      (∀ n w, SearchEvent.sleep n w ∈ (search_news env q mr tf a).2 →
        w = baseWaitFor n ∧ a ≤ n) ∧
      (sleepWaits (search_news env q mr tf a).2).Chain' (· ≤ ·) := by
  intro k
  induction k with
  | zero =>
    intro env q mr tf a hk
    exact search_news_sleep_terminal env q mr tf a (by omega)
  | succ k ih =>
    intro env q mr tf a hk
    by_cases ha : a < MAX_RETRIES
    case neg =>
      exact search_news_sleep_terminal env q mr tf a ha
    case pos =>
      have hk' : MAX_RETRIES - (a + 1) ≤ k := by omega
      cases henv : env a with
      | success items =>
        rw [search_news_success env q mr tf a items henv]
        exact ⟨fun n w hw => absurd hw (by simp), by simp [sleepWaits]⟩
      | parseFailure =>
        rw [search_news_parse_retry env q mr tf a henv ha]
        obtain ⟨hinv, hchain⟩ := ih env q mr tf (a + 1) hk'
        exact sleep_invariant_prepend q mr tf a _ hinv hchain
      | requestFailure msg st =>
        by_cases hrl : (rateLimitIndicators.any fun ind => containsSub (pyLower msg) ind) = true
        · rw [search_news_rate_limited_retry env q mr tf a msg st henv hrl ha]
          obtain ⟨hinv, hchain⟩ := ih env q mr tf (a + 1) hk'
          exact sleep_invariant_prepend q mr tf a _ hinv hchain
        · rw [Bool.not_eq_true] at hrl
          cases st with
          | none =>
            rw [search_news_unbound env q mr tf a msg henv hrl]
            exact ⟨fun n w hw => absurd hw (by simp), by simp [sleepWaits]⟩
          | some s =>
            by_cases hs : s = 429
            · subst hs
              rw [search_news_status429_retry env q mr tf a msg henv hrl ha]
              obtain ⟨hinv, hchain⟩ := ih env q mr tf (a + 1) hk'
              exact sleep_invariant_prepend q mr tf a _ hinv hchain
            · rw [search_news_fallback env q mr tf a msg s henv hrl hs ha]
              obtain ⟨hinv, hchain⟩ := ih env q mr (fallbackTime tf) (a + 1) hk'
              refine ⟨?_, hchain⟩
              intro n w hw
              rcases List.mem_cons.mp hw with hw | hw
              · exact absurd hw (by simp)
              · obtain ⟨h1, h2⟩ := hinv n w hw
                exact ⟨h1, by omega⟩

/-! ### Search client claim theorems -/

/-- C1 (code bug): when `requests.get` itself raises with an error text
containing no rate-limit indicator (here a connection timeout), the
`except` handler at line 117 evaluates `response.status_code` although
`response` was never bound, and `search_news` raises `UnboundLocalError`
to its caller instead of returning a list. -/
theorem search_news_connection_failure_raises :
    (search_news envConnectionTimeout "test".data 10 (some TimeFilter.w) 1).1
      = Except.error PyError.unboundLocalError := by
  rw [search_news_unbound envConnectionTimeout "test".data 10 (some TimeFilter.w) 1
      "Connection timed out".data rfl (by decide)]

lemma rate_limited_run_trace :
    search_news envAlwaysRateLimited "test".data 10 (some TimeFilter.w) 1 =
      (.ok [], [.request "test".data 10 (some TimeFilter.w),
                .sleep 1 10,
                .request "test".data 10 (some TimeFilter.w),
                .sleep 2 20,
                .request "test".data 10 (some TimeFilter.w),
                .sleep 3 40,
                .request "test".data 10 (some TimeFilter.w),
                .sleep 4 80,
                .request "test".data 10 (some TimeFilter.w)]) := by
  rw [search_news_rate_limited_retry envAlwaysRateLimited "test".data 10 (some TimeFilter.w) 1
      "429 Client Error: Too Many Requests for url".data (some 429) rfl (by decide) (by decide)]
  rw [search_news_rate_limited_retry envAlwaysRateLimited "test".data 10 (some TimeFilter.w) 2
      "429 Client Error: Too Many Requests for url".data (some 429) rfl (by decide) (by decide)]
  rw [search_news_rate_limited_retry envAlwaysRateLimited "test".data 10 (some TimeFilter.w) 3
      "429 Client Error: Too Many Requests for url".data (some 429) rfl (by decide) (by decide)]
  rw [search_news_rate_limited_retry envAlwaysRateLimited "test".data 10 (some TimeFilter.w) 4
      "429 Client Error: Too Many Requests for url".data (some 429) rfl (by decide) (by decide)]
  rw [search_news_rate_limited_exhausted envAlwaysRateLimited "test".data 10 (some TimeFilter.w) 5
      "429 Client Error: Too Many Requests for url".data (some 429) rfl (by decide) (by decide)]
  rfl

/-- C2 counterexample: a run whose five attempts all hit the rate limit
exhausts its retries and returns the empty list — its trace holds five
identical requests with the original week filter and `max_results`, and
no degraded request with the time window removed or `max_results`
halved is ever issued. -/
theorem search_no_degraded_query_counterexample :
    (search_news envAlwaysRateLimited "test".data 10 (some TimeFilter.w) 1).2 =
      [.request "test".data 10 (some TimeFilter.w),
       .sleep 1 10,
       .request "test".data 10 (some TimeFilter.w),
       .sleep 2 20,
       .request "test".data 10 (some TimeFilter.w),
       .sleep 3 40,
       .request "test".data 10 (some TimeFilter.w),
       .sleep 4 80,
       .request "test".data 10 (some TimeFilter.w)] ∧
    ((search_news envAlwaysRateLimited "test".data 10 (some TimeFilter.w) 1).2.all fun e =>
      match e with
      | .request _ mr' tf' => decide (tf' ≠ none) && decide (mr' = 10)
      | .sleep _ _ => true) = true := by
  rw [rate_limited_run_trace]
  exact ⟨rfl, rfl⟩

lemma fallbackTime_eq_m_or_y (tf : Option TimeFilter) :
    fallbackTime tf = some TimeFilter.m ∨ fallbackTime tf = some TimeFilter.y := by
  unfold fallbackTime
  split
  · exact Or.inl rfl
  · exact Or.inr rfl

lemma requestParamsOk_of_fallback (q : List Char) (mr : Nat) (tf : Option TimeFilter)
    (e : SearchEvent) (h : requestParamsOk q mr (fallbackTime tf) e) :
    requestParamsOk q mr tf e := by
  cases e with
  | sleep n w => trivial
  | request q' mr' tf' =>
    obtain ⟨h1, h2, h3⟩ := h
    refine ⟨h1, h2, ?_⟩
    rcases h3 with h3 | h3 | h3
    · rcases fallbackTime_eq_m_or_y tf with hf | hf
      · exact Or.inr (Or.inl (h3.trans hf))
      · exact Or.inr (Or.inr (h3.trans hf))
    · exact Or.inr (Or.inl h3)
    · exact Or.inr (Or.inr h3)

lemma search_requests_aux :
    ∀ (k : Nat) (env : Nat → CallOutcome) (q : List Char) (mr : Nat)
      (tf : Option TimeFilter) (a : Nat), MAX_RETRIES - a ≤ k →
      ∀ e ∈ (search_news env q mr tf a).2, requestParamsOk q mr tf e := by
  have terminal : ∀ (env : Nat → CallOutcome) (q : List Char) (mr : Nat)
      (tf : Option TimeFilter) (a : Nat), ¬ a < MAX_RETRIES →
      ∀ e ∈ (search_news env q mr tf a).2, requestParamsOk q mr tf e := by
    intro env q mr tf a ha e he
    cases henv : env a with
    | success items =>
      rw [search_news_success env q mr tf a items henv] at he
      rw [List.mem_singleton.mp he]
      exact ⟨rfl, rfl, Or.inl rfl⟩
    | parseFailure =>
      rw [search_news_parse_exhausted env q mr tf a henv ha] at he
      rw [List.mem_singleton.mp he]
      exact ⟨rfl, rfl, Or.inl rfl⟩
    | requestFailure msg st =>
      by_cases hrl : (rateLimitIndicators.any fun ind => containsSub (pyLower msg) ind) = true
      · rw [search_news_rate_limited_exhausted env q mr tf a msg st henv hrl ha] at he
        rw [List.mem_singleton.mp he]
        exact ⟨rfl, rfl, Or.inl rfl⟩
      · rw [Bool.not_eq_true] at hrl
        cases st with
        | none =>
          rw [search_news_unbound env q mr tf a msg henv hrl] at he
          rw [List.mem_singleton.mp he]
          exact ⟨rfl, rfl, Or.inl rfl⟩
        | some s =>
          rw [search_news_status_exhausted env q mr tf a msg s henv hrl ha] at he
          rw [List.mem_singleton.mp he]
          exact ⟨rfl, rfl, Or.inl rfl⟩
  intro k
  induction k with
  | zero =>
    intro env q mr tf a hk e he
    exact terminal env q mr tf a (by omega) e he
  | succ k ih =>
    intro env q mr tf a hk e he
    by_cases ha : a < MAX_RETRIES
    case neg => exact terminal env q mr tf a ha e he
    case pos =>
      have hk' : MAX_RETRIES - (a + 1) ≤ k := by omega
      cases henv : env a with
      | success items =>
        rw [search_news_success env q mr tf a items henv] at he
        rw [List.mem_singleton.mp he]
        exact ⟨rfl, rfl, Or.inl rfl⟩
      | parseFailure =>
        rw [search_news_parse_retry env q mr tf a henv ha] at he
        rcases List.mem_cons.mp he with rfl | he
        · exact ⟨rfl, rfl, Or.inl rfl⟩
        rcases List.mem_cons.mp he with rfl | he
        · trivial
        · exact ih env q mr tf (a + 1) hk' e he
      | requestFailure msg st =>
        by_cases hrl : (rateLimitIndicators.any fun ind => containsSub (pyLower msg) ind) = true
        · rw [search_news_rate_limited_retry env q mr tf a msg st henv hrl ha] at he
          rcases List.mem_cons.mp he with rfl | he
          · exact ⟨rfl, rfl, Or.inl rfl⟩
          rcases List.mem_cons.mp he with rfl | he
          · trivial
          · exact ih env q mr tf (a + 1) hk' e he
        · rw [Bool.not_eq_true] at hrl
          cases st with
          | none =>
            rw [search_news_unbound env q mr tf a msg henv hrl] at he
            rw [List.mem_singleton.mp he]
            exact ⟨rfl, rfl, Or.inl rfl⟩
          | some s =>
            by_cases hs : s = 429
            · subst hs
              rw [search_news_status429_retry env q mr tf a msg henv hrl ha] at he
              rcases List.mem_cons.mp he with rfl | he
              · exact ⟨rfl, rfl, Or.inl rfl⟩
              rcases List.mem_cons.mp he with rfl | he
              · trivial
              · exact ih env q mr tf (a + 1) hk' e he
            · rw [search_news_fallback env q mr tf a msg s henv hrl hs ha] at he
              rcases List.mem_cons.mp he with rfl | he
              · exact ⟨rfl, rfl, Or.inl rfl⟩
              · exact requestParamsOk_of_fallback q mr tf e
                  (ih env q mr (fallbackTime tf) (a + 1) hk' e he)

/-- C2 (amended): every request a `search_news` call issues keeps the
caller's search text and `max_results` unchanged and uses either the
caller's time filter or one of the fallback filters month/year — the
non-rate-limit fallback switches the filter to month (year when already
month); the time window is never removed and `max_results` is never
halved, and rate-limit exhaustion issues no degraded query at all. -/
theorem search_requests_preserve_parameters (env : Nat → CallOutcome) (q : List Char)
    (mr : Nat) (tf : Option TimeFilter) (a : Nat) :
    ∀ e ∈ (search_news env q mr tf a).2, requestParamsOk q mr tf e :=
  search_requests_aux (MAX_RETRIES - a) env q mr tf a le_rfl

/-- Witness for the amended C2: a non-rate-limit server error on attempt
1 leads to a fallback request that keeps query and `max_results` and uses
the month filter. -/
theorem search_requests_preserve_parameters_witness :
    requestParamsOk "test".data 10 (some TimeFilter.w)
      (SearchEvent.request "test".data 10 (some TimeFilter.m)) := by
  apply search_requests_preserve_parameters envServerErrorThenOk "test".data 10
    (some TimeFilter.w) 1
  rw [search_news_fallback envServerErrorThenOk "test".data 10 (some TimeFilter.w) 1
      "500 Server Error for url".data 500 rfl (by decide) (by decide) (by decide)]
  rw [search_news_success envServerErrorThenOk "test".data 10
      (fallbackTime (some TimeFilter.w)) 2 [] rfl]
  decide

/-- C6: in any `search_news` run, every backoff sleep for attempt `n`
waits (pre-jitter) exactly `min(INITIAL_BACKOFF * 2^(n-1), MAX_BACKOFF)`
seconds, never exceeding `MAX_BACKOFF`, and the waits are monotonically
non-decreasing along the retry sequence. -/
theorem backoff_bound_and_monotone (env : Nat → CallOutcome) (q : List Char) (mr : Nat)
    (tf : Option TimeFilter) (a : Nat) :
    (∀ n w, SearchEvent.sleep n w ∈ (search_news env q mr tf a).2 →
      w = min (INITIAL_BACKOFF * 2 ^ (n - 1)) MAX_BACKOFF ∧ w ≤ MAX_BACKOFF) ∧
    (sleepWaits (search_news env q mr tf a).2).Chain' (· ≤ ·) := by
  obtain ⟨hinv, hchain⟩ := search_news_sleep_invariant (MAX_RETRIES - a) env q mr tf a le_rfl
  refine ⟨?_, hchain⟩
  intro n w hw
  obtain ⟨h1, _⟩ := hinv n w hw
  exact ⟨h1, h1 ▸ baseWaitFor_le n⟩

/-- Witness for C6: the first sleep of an all-rate-limited run waits 10
seconds, matching the formula at attempt 1 and the cap. -/
theorem backoff_bound_and_monotone_witness :
    (10 : Nat) = min (INITIAL_BACKOFF * 2 ^ (1 - 1)) MAX_BACKOFF ∧ (10 : Nat) ≤ MAX_BACKOFF := by
  apply (backoff_bound_and_monotone envAlwaysRateLimited "test".data 10
    (some TimeFilter.w) 1).1 1 10
  rw [rate_limited_run_trace]
  decide

/-! ### Batch collector theorems -/

lemma flatten_map_ne_nil (et : EntityKind) (l : List EntityTuple) (hl : l ≠ []) :
    (l.map fun e => [searchEventFor et e, sleepEventFor et e]).flatten ≠ [] := by
  cases l with
  | nil => exact absurd rfl hl
  | cons x t => simp

/-- The body of the final batch: with the skip test against `z` and no
earlier element equal to `z`, only the final sleep is dropped. -/
lemma inner_last_batch (et : EntityKind) :
    ∀ (batch : List EntityTuple) (z : EntityTuple),
      batch.getLast? = some z → (∀ e ∈ batch.dropLast, e ≠ z) →
      (batch.flatMap fun e =>
          if some z = some e then [searchEventFor et e]
          else [searchEventFor et e, sleepEventFor et e])
        = ((batch.map fun e => [searchEventFor et e, sleepEventFor et e]).flatten).dropLast := by
  intro batch
  induction batch with
  | nil =>
    intro z hz _
    simp at hz
  | cons x t ih =>
    intro z hz hne
    cases t with
    | nil =>
      obtain rfl : x = z := by simpa using hz
      simp
    | cons y t' =>
      have hz' : (y :: t').getLast? = some z := by rwa [List.getLast?_cons_cons] at hz
      have hxz : x ≠ z := hne x (by rw [List.dropLast_cons₂]; exact List.mem_cons_self _ _)
      rw [List.flatMap_cons]
      rw [if_neg (by simpa using fun h => hxz h.symm)]
      rw [ih z hz' fun e he => hne e (by rw [List.dropLast_cons₂]; exact List.mem_cons_of_mem _ he)]
      conv_rhs => rw [List.map_cons, List.flatten_cons]
      rw [List.dropLast_append_of_ne_nil _ (flatten_map_ne_nil et (y :: t') (by simp))]

lemma collect_batches_aux (et : EntityKind) (bs : Nat) (hbs : 0 < bs) :
    ∀ (N : Nat) (l : List EntityTuple), (l.length + bs - 1) / bs = N → l.Nodup →
      collect_news_for_batches l bs et = pacingIdealTrace et l := by
  intro N
  induction N with
  | zero =>
    intro l hN _
    have hlen : l.length = 0 := by
      by_contra h
      have h2 : bs ≤ l.length + bs - 1 := by omega
      have h3 := Nat.div_le_div_right (c := bs) h2
      rw [Nat.div_self hbs] at h3
      omega
    obtain rfl := List.length_eq_zero.mp hlen
    have h0 : ((List.nil : List EntityTuple).length + bs - 1) / bs = 0 := hN
    simp only [collect_news_for_batches, pacingIdealTrace, h0]
    simp
  | succ N ih =>
    intro l hN hnd
    have hlpos : l.length ≠ 0 := by
      intro h
      rw [h] at hN
      have : (0 + bs - 1) / bs = 0 := Nat.div_eq_of_lt (by omega)
      omega
    by_cases hN0 : N = 0
    · subst hN0
      have hlen_le : l.length ≤ bs := by
        by_contra h
        push_neg at h
        have h2 : 2 * bs ≤ l.length + bs - 1 := by omega
        have h3 := Nat.div_le_div_right (c := bs) h2
        rw [Nat.mul_div_cancel _ hbs] at h3
        omega
      have hlne : l ≠ [] := fun h => hlpos (by rw [h]; rfl)
      obtain ⟨z, hz⟩ : ∃ z, l.getLast? = some z := by
        have := List.getLast?_isSome.mpr hlne
        exact Option.isSome_iff_exists.mp this
      have hsplit : l.dropLast ++ [z] = l :=
        List.dropLast_append_getLast? z (by rw [hz]; rfl)
      have hne : ∀ e ∈ l.dropLast, e ≠ z := by
        intro e he heq
        have hnd' : (l.dropLast ++ [z]).Nodup := by rw [hsplit]; exact hnd
        exact (List.disjoint_singleton.mp (List.nodup_append.mp hnd').2.2) (heq ▸ he)
      simp only [collect_news_for_batches, pacingIdealTrace, hN]
      rw [show List.range 1 = [0] from rfl, List.flatMap_cons, List.flatMap_nil,
        List.append_nil, Nat.zero_mul, List.drop_zero, List.take_of_length_le hlen_le]
      simp only [hz]
      rw [List.flatMap_def]
      simp only [and_true]
      rw [← List.flatMap_def]
      exact inner_last_batch et l z hz hne
    · have hNge : 1 ≤ N := Nat.one_le_iff_ne_zero.mpr hN0
      have hlen_gt : bs < l.length := by
        by_contra h
        push_neg at h
        have h2 : l.length + bs - 1 < 2 * bs := by omega
        have h3 : (l.length + bs - 1) / bs < 2 :=
          (Nat.div_lt_iff_lt_mul hbs).mpr h2
        omega
      have hdrop : ((l.drop bs).length + bs - 1) / bs = N := by
        rw [List.length_drop]
        have h1 : l.length - bs + bs - 1 = l.length - 1 := by omega
        rw [h1]
        have h2 : l.length + bs - 1 = (l.length - 1) + bs := by omega
        rw [h2, Nat.add_div_right _ hbs] at hN
        omega
      have ihdrop := ih (l.drop bs) hdrop ((List.drop_sublist bs l).nodup hnd)
      have hdropne : l.drop bs ≠ [] := by
        intro h
        have := List.length_drop bs l
        rw [h] at this
        simp at this
        omega
      simp only [collect_news_for_batches] at ihdrop
      rw [hdrop] at ihdrop
      simp only [collect_news_for_batches, hN]
      rw [List.range_succ_eq_map, List.flatMap_cons, List.flatMap_map]
      have hfirst : ((l.drop (0 * bs)).take bs).flatMap (fun e =>
          if ((l.drop (0 * bs)).take bs).getLast? = some e ∧ (0 : Nat) = N + 1 - 1
          then [searchEventFor et e] else [searchEventFor et e, sleepEventFor et e])
          = ((l.take bs).map fun e => [searchEventFor et e, sleepEventFor et e]).flatten := by
        rw [Nat.zero_mul, List.drop_zero]
        have hcond : ∀ e ∈ l.take bs, (if (l.take bs).getLast? = some e ∧ (0 : Nat) = N + 1 - 1
            then [searchEventFor et e] else [searchEventFor et e, sleepEventFor et e])
            = [searchEventFor et e, sleepEventFor et e] := by
          intro e _
          exact if_neg fun hcon => absurd hcon.2 (by omega)
        rw [List.flatMap_def, List.map_congr_left hcond]
      have hrest : (List.range N).flatMap (fun i =>
          ((l.drop (Nat.succ i * bs)).take bs).flatMap fun e =>
            if ((l.drop (Nat.succ i * bs)).take bs).getLast? = some e ∧ Nat.succ i = N + 1 - 1
            then [searchEventFor et e] else [searchEventFor et e, sleepEventFor et e])
          = (List.range N).flatMap fun i =>
            (((l.drop bs).drop (i * bs)).take bs).flatMap fun e =>
              if (((l.drop bs).drop (i * bs)).take bs).getLast? = some e ∧ i = N - 1
              then [searchEventFor et e] else [searchEventFor et e, sleepEventFor et e] := by
        rw [List.flatMap_def, List.flatMap_def]
        congr 1
        apply List.map_congr_left
        intro i _
        have hdd : (l.drop bs).drop (i * bs) = l.drop (Nat.succ i * bs) := by
          rw [List.drop_drop]
          congr 1
          rw [Nat.succ_mul]
          omega
        rw [hdd]
        rw [List.flatMap_def, List.flatMap_def]
        congr 1
        apply List.map_congr_left
        intro e _
        exact if_congr (and_congr_right fun _ => by omega) rfl rfl
      rw [hfirst, hrest, ihdrop]
      simp only [pacingIdealTrace]
      conv_rhs => rw [← List.take_append_drop bs l]
      rw [List.map_append, List.flatten_append,
        List.dropLast_append_of_ne_nil _ (flatten_map_ne_nil et (l.drop bs) hdropne)]

/-- C9 counterexample: for the entity list `[a, b, a]` in one batch of
three, the value-equality skip test `entity_tuple == batch_entities[-1]`
also fires at the first occurrence of `a`, so the sleep between `a` and
`b` is skipped and the trace differs from the claimed
sleep-between-every-adjacent-pair discipline. -/
theorem pacing_sleep_counterexample :
    collect_news_for_batches
        [EntityTuple.pair "Aco".data "aq".data,
         EntityTuple.pair "Bco".data "bq".data,
         EntityTuple.pair "Aco".data "aq".data] 3 EntityKind.client
      ≠ pacingIdealTrace EntityKind.client
        [EntityTuple.pair "Aco".data "aq".data,
         EntityTuple.pair "Bco".data "bq".data,
         EntityTuple.pair "Aco".data "aq".data] := by
  decide

/-- C9 (amended): for a duplicate-free entity list (the configuration
invariant) and positive batch size, the batch collector's trace is the
entities' searches with the pacing sleep exactly once between every pair
of adjacent entities — within and across batches — and no sleep before
the first or after the last entity; each sleep carries the 1.5×
multiplier exactly for non-topic entities matching the high-profile
list. -/
theorem pacing_sleep_between_adjacent_entities (et : EntityKind)
    (entity_list : List EntityTuple) (batch_size : Nat)
    (hbs : 0 < batch_size) (hnd : entity_list.Nodup) :
    collect_news_for_batches entity_list batch_size et = pacingIdealTrace et entity_list :=
  collect_batches_aux et batch_size hbs _ entity_list rfl hnd

/-- Witness for the amended C9: two entities in batches of one — the
sleep occurs exactly once, across the batch boundary. -/
theorem pacing_sleep_between_adjacent_entities_witness :
    collect_news_for_batches
        [EntityTuple.pair "Aco".data "aq".data, EntityTuple.pair "Bco".data "bq".data]
        1 EntityKind.client
      = pacingIdealTrace EntityKind.client
        [EntityTuple.pair "Aco".data "aq".data, EntityTuple.pair "Bco".data "bq".data] :=
  pacing_sleep_between_adjacent_entities EntityKind.client _ 1 (by decide) (by decide)

end ZNews
